import Mathlib

/-!
Shallow embedding of the OET python-ai-engine local LLM manager
(src/backend/services/python-ai-engine/app/models/llm_manager.py).

The manager keeps three Python dicts keyed by model name: `loaded_models`
(model handles), `tokenizers`, and `model_info` (per-model metadata).  All
load/unload transitions run under a single process-wide `asyncio.Lock`
(`self.model_lock`), which is NOT reentrant: a coroutine that already holds
the lock and awaits `acquire()` again blocks forever.  We model that lock as
a `lockHeld` flag on the state; an operation entered while the flag is set
denotes the permanent hang and is represented by `none` / `.hang`.

External capabilities (the HuggingFace loader, the decode loop, psutil
memory queries, the wall clock) are modelled as oracle parameters: the
loader result is an `Option (Nat × Nat)` (model handle, tokenizer handle;
`none` = the type-specific loader failed and returned `(None, None)`),
available memory is a rational number of GB, and each call receives the
clock values sampled at its start and end.
-/

namespace OET

/-- Python `d[k]` lookup on an insertion-ordered dict, represented as an
association list: returns the value at the first matching key. -/
def dictLookup {α : Type} : List (String × α) → String → Option α
  | [], _ => none
  | (k', v) :: rest, k => if k' = k then some v else dictLookup rest k

/-- Python `d[k] = v`: update in place (keeping the key's position) when the
key is present, otherwise append at the end — insertion order semantics. -/
def dictSet {α : Type} : List (String × α) → String → α → List (String × α)
  | [], k, v => [(k, v)]
  | (k', v') :: rest, k, v =>
      if k' = k then (k, v) :: rest else (k', v') :: dictSet rest k v

/-- Python `del d[k]`: remove the entry with the given key.  Dict keys are
unique, so removing every matching entry is the same as removing the one
entry. -/
def dictDel {α : Type} (l : List (String × α)) (k : String) :
    List (String × α) :=
  l.filter (fun p => p.1 != k)

/-- Python `k in d`. -/
def containsKey {α : Type} : List (String × α) → String → Bool
  | [], _ => false
  | (k', _) :: rest, k => (k' == k) || containsKey rest k

/-- `ModelType` enum from llm_manager.py. -/
inductive ModelType
  | llm
  | medical_nlp
  | embedding
  | classifier
  | custom
deriving DecidableEq, Repr

/-- `ModelInfo` dataclass: metadata for a resident model.  Times and sizes
are floats in the source; we model them as rationals. -/
structure ModelInfo where
  name : String
  model_type : ModelType
  size_gb : Rat
  device : String
  quantization : Option String
  load_time : Rat
  last_used : Rat
  use_count : Nat
  memory_usage : Rat
deriving DecidableEq, Repr

/-- `GenerationRequest` dataclass.  `stop_sequences` defaults to `None` in
Python; we represent `None` as the empty list (both are falsy at the only
use site, `if request.stop_sequences:`). -/
structure GenerationRequest where
  prompt : String
  model_name : Option String := none
  max_tokens : Nat := 512
  temperature : Rat := 7/10
  top_p : Rat := 9/10
  top_k : Nat := 50
  repetition_penalty : Rat := 11/10
  stop_sequences : List String := []
  stream : Bool := false
  context_length : Option Nat := none
deriving DecidableEq, Repr

/-- `GenerationResponse` dataclass (the free-form `metadata` dict, which only
echoes request parameters and settings, is omitted). -/
structure GenerationResponse where
  text : String
  model_used : String
  tokens_generated : Nat
  generation_time : Rat
  prompt_tokens : Nat
  total_tokens : Nat
  finish_reason : String
deriving DecidableEq, Repr

/-- The mutable state of an `LLMManager` instance: the three dicts plus the
`model_lock` flag (`true` while some call holds the asyncio lock).  Model
and tokenizer handles are 'opaque'; we represent them by `Nat`. -/
structure LLMState where
  loaded_models : List (String × Nat)
  tokenizers : List (String × Nat)
  model_info : List (String × ModelInfo)
  lockHeld : Bool
deriving DecidableEq, Repr

/-- The body of `unload_model` lines 207–218: bail out returning `False`
when the name is not resident; otherwise delete the entry from all three
dicts (the tokenizer and info deletions are guarded by `in` checks). -/
def unload_model_body (s : LLMState) (name : String) : Bool × LLMState :=
  if ¬ containsKey s.loaded_models name then
    (false, s)
  else
    let s1 := { s with loaded_models := dictDel s.loaded_models name }
    let s2 :=
      if containsKey s1.tokenizers name then
        { s1 with tokenizers := dictDel s1.tokenizers name }
      else s1
    let s3 :=
      if containsKey s2.model_info name then
        { s2 with model_info := dictDel s2.model_info name }
      else s2
    (true, s3)

/-- `unload_model` (lines 203–231): `async with self.model_lock` around the
body.  The asyncio lock is not reentrant, so entering while the lock is
already held by the running task never completes — modelled as `none`. -/
def unload_model (s : LLMState) (name : String) : Option (Bool × LLMState) :=
  if s.lockHeld then none
  else
    let r := unload_model_body { s with lockHeld := true } name
    some (r.1, { r.2 with lockHeld := false })

/-- First entry attaining the minimal `last_used`, matching
`sorted(self.model_info.items(), key=lambda x: x[1].last_used)[0]` — Python's
sort is stable, so ties resolve to the earlier entry in insertion order. -/
def minByLastUsed : List (String × ModelInfo) → Option (String × ModelInfo)
  | [] => none
  | x :: rest =>
      match minByLastUsed rest with
      | none => some x
      | some y => if x.2.last_used ≤ y.2.last_used then some x else some y

/-- `_cleanup_unused_models` (lines 552–566): return immediately when at
most one entry is in `model_info`; otherwise await `self.unload_model` on
the least-recently-used name.  The caller (`load_model`) holds the lock, so
that inner `unload_model` deadlocks (`none`). -/
def cleanup_unused_models (s : LLMState) : Option LLMState :=
  if s.model_info.length ≤ 1 then some s
  else
    match minByLastUsed s.model_info with
    | none => some s
    | some oldest => (unload_model s oldest.1).map (fun r => r.2)

/-- The `ModelInfo` record created by a successful full load
(lines 184–194): fresh `last_used`, zero `use_count`, and
`load_time = time.time() - start_time`. -/
def loadedInfo (name : String) (mtype : ModelType) (tStart tEnd : Rat)
    (modelSize memUsage : Rat) (device : String)
    (quant : Option String) : ModelInfo :=
  { name := name
    model_type := mtype
    size_gb := modelSize
    device := device
    quantization := quant
    load_time := tEnd - tStart
    last_used := tEnd
    use_count := 0
    memory_usage := memUsage }

/-- `load_model` (lines 143–201).  Oracle parameters: `tStart`/`tEnd` are
the wall-clock samples at the start and end of the call, `availMem` the
psutil available-memory reading in GB, `loader` the result of
`_load_model_by_type` (`none` = loader failure), `modelSize`, `memUsage`,
`device` and `quant` the computed size/memory/device/quantization values.
Returns `none` when the call never completes (the eviction deadlock). -/
def load_model (s : LLMState) (name : String) (mtype : ModelType)
    (force_reload : Bool) (tStart tEnd : Rat) (availMem : Rat)
    (loader : Option (Nat × Nat)) (modelSize memUsage : Rat)
    (device : String) (quant : Option String) : Option (Bool × LLMState) :=
  if s.lockHeld then none
  else
    let s1 : LLMState := { s with lockHeld := true }
    if containsKey s1.loaded_models name && ! force_reload then
      -- already-loaded fast path (lines 153–156); the in-place
      -- `self.model_info[model_name].last_used = time.time()` raises
      -- KeyError when the info entry is missing, caught by the broad
      -- `except` which returns False.
      match dictLookup s1.model_info name with
      | none => some (false, { s1 with lockHeld := false })
      | some info =>
          some (true,
            { s1 with
                model_info :=
                  dictSet s1.model_info name { info with last_used := tStart },
                lockHeld := false })
    else
      let cleaned : Option LLMState :=
        if availMem < 2 then cleanup_unused_models s1 else some s1
      match cleaned with
      | none => none
      | some s2 =>
          match loader with
          | none => some (false, { s2 with lockHeld := false })
          | some handles =>
              let s3 : LLMState :=
                { s2 with
                    loaded_models := dictSet s2.loaded_models name handles.1,
                    tokenizers := dictSet s2.tokenizers name handles.2 }
              some (true,
                { s3 with
                    model_info := dictSet s3.model_info name
                      (loadedInfo name mtype tStart tEnd modelSize memUsage
                        device quant),
                    lockHeld := false })

/-- Occurs-at-some-position check on character lists. -/
def infixCheck (needle : List Char) : List Char → Bool
  | [] => needle.isEmpty
  | c :: rest => needle.isPrefixOf (c :: rest) || infixCheck needle rest

/-- Substring test for Python's `stop_seq in last_tokens`. -/
def strContains (hay needle : String) : Bool :=
  infixCheck needle.data hay.data

/-- The `CustomStoppingCriteria.__call__` predicate from
`_create_stopping_criteria` (lines 568–584): decode the trailing window of
token ids and report whether any configured stop sequence occurs in it. -/
def custom_stopping_criteria (stop_sequences : List String)
    (lastTokensText : String) : Bool :=
  stop_sequences.any (fun stop_seq => strContains lastTokensText stop_seq)

/-- Python truthiness of `request.model_name or default` (and
`model_name or DEFAULT_MEDICAL_MODEL`): `None` and the empty string both
fall back to the default. -/
def resolveModelName (requested : Option String) (dflt : String) : String :=
  match requested with
  | none => dflt
  | some n => if n = "" then dflt else n

/-- Token accounting and response assembly of `generate_text`
(lines 292–313): `total_tokens = outputs[0].shape[0]` is the prompt plus the
`g` newly generated tokens, `tokens_generated` their difference, and
`finish_reason` is `"length"` exactly when `tokens_generated` reached
`max_tokens` (line 306) — it does not consult the stop sequences. -/
def mkGenResponse (model_used : String) (prompt_tokens g : Nat)
    (text : String) (tStart tEnd : Rat)
    (max_tokens : Nat) : GenerationResponse :=
  let total_tokens := prompt_tokens + g
  let tokens_generated := total_tokens - prompt_tokens
  { text := text
    model_used := model_used
    tokens_generated := tokens_generated
    generation_time := tEnd - tStart
    prompt_tokens := prompt_tokens
    total_tokens := total_tokens
    finish_reason :=
      if tokens_generated ≥ max_tokens then "length" else "stop" }

/-- Outcome of a `generate_text` call: `hang` when the call never completes
(deadlocked on-demand load), `failed s` when an exception propagates to the
caller with the manager left in state `s`, `ok resp s` on success. -/
inductive GenOutcome
  | hang
  | failed (s : LLMState)
  | ok (resp : GenerationResponse) (s : LLMState)
deriving DecidableEq, Repr

/-- `generate_text` (lines 233–317).  Oracles beyond those of `load_model`:
`defaultModel` is `settings.DEFAULT_LLM_MODEL`, `promptTokens` the token
length of the encoded prompt, and `decoded` the result of the 'opaque'
`model.generate` + `tokenizer.decode` capability — `none` when generation
raises (the broad `except` logs and re-raises), `some (g, text)` when the
runtime produced `g` new tokens decoding to `text`.  The usage-stats
mutation (lines 248–250) happens before generation runs, so it survives a
generation failure. -/
def generate_text (s : LLMState) (req : GenerationRequest)
    (defaultModel : String) (tStart tEnd : Rat) (availMem : Rat)
    (loader : Option (Nat × Nat)) (modelSize memUsage : Rat)
    (device : String) (quant : Option String) (promptTokens : Nat)
    (decoded : Option (Nat × String)) : GenOutcome :=
  let name := resolveModelName req.model_name defaultModel
  -- `EnsureLoaded`: lines 239–243
  let ensured : Option (Option LLMState) :=
    if containsKey s.loaded_models name then some (some s)
    else
      match load_model s name ModelType.llm false tStart tEnd availMem
          loader modelSize memUsage device quant with
      | none => none
      | some (false, s') => some (none)  -- ValueError raised, re-raised at 317
      | some (true, s') => some (some s')
  match ensured with
  | none => GenOutcome.hang
  | some none =>
      -- the failed on-demand load leaves the state as load_model left it
      match load_model s name ModelType.llm false tStart tEnd availMem
          loader modelSize memUsage device quant with
      | some (_, s') => GenOutcome.failed s'
      | none => GenOutcome.hang
  | some (some s1) =>
      -- lines 245–246: dict lookups raise KeyError when absent
      match dictLookup s1.loaded_models name, dictLookup s1.tokenizers name with
      | some _, some _ =>
          match dictLookup s1.model_info name with
          | none => GenOutcome.failed s1  -- KeyError at line 249
          | some info =>
              -- lines 248–250: refresh last_used, bump use_count
              let s2 : LLMState :=
                { s1 with
                    model_info :=
                      dictSet s1.model_info name
                        { info with
                            last_used := tStart
                            use_count := info.use_count + 1 } }
              match decoded with
              | none => GenOutcome.failed s2
              | some gt =>
                  GenOutcome.ok
                    (mkGenResponse name promptTokens gt.1 gt.2 tStart tEnd
                      req.max_tokens)
                    s2
      | _, _ => GenOutcome.failed s1

/-- Outcome of a `get_embedding` call. -/
inductive EmbedOutcome
  | hang
  | failed (s : LLMState)
  | ok (v : List Rat) (s : LLMState)
deriving DecidableEq, Repr

/-- `get_embedding` (lines 319–348).  `defaultModel` is
`settings.DEFAULT_MEDICAL_MODEL`; `embedding` is the result of the encoder
capability (`none` = runtime failure, re-raised).  Note the source performs
NO usage-stats update on this path: `model_info` is read nowhere here. -/
def get_embedding (s : LLMState) (text : String) (reqName : Option String)
    (defaultModel : String) (tStart tEnd : Rat) (availMem : Rat)
    (loader : Option (Nat × Nat)) (modelSize memUsage : Rat)
    (device : String) (quant : Option String)
    (embedding : Option (List Rat)) : EmbedOutcome :=
  let name := resolveModelName reqName defaultModel
  let ensured : Option (Option LLMState) :=
    if containsKey s.loaded_models name then some (some s)
    else
      match load_model s name ModelType.embedding false tStart tEnd availMem
          loader modelSize memUsage device quant with
      | none => none
      | some (false, s') => some (none)
      | some (true, s') => some (some s')
  match ensured with
  | none => EmbedOutcome.hang
  | some none =>
      match load_model s name ModelType.embedding false tStart tEnd availMem
          loader modelSize memUsage device quant with
      | some (_, s') => EmbedOutcome.failed s'
      | none => EmbedOutcome.hang
  | some (some s1) =>
      -- lines 330–331: dict lookups raise KeyError when absent
      match dictLookup s1.loaded_models name, dictLookup s1.tokenizers name with
      | some _, some _ =>
          match embedding with
          | none => EmbedOutcome.failed s1
          | some v => EmbedOutcome.ok v s1
      | _, _ => EmbedOutcome.failed s1

/-- The unload loop of `cleanup` (lines 425–427): unload each currently
resident name in order.  Each iteration is a fresh top-level
`unload_model` call (the lock is free between iterations). -/
def cleanup_loop (s : LLMState) : List String → Option LLMState
  | [] => some s
  | name :: rest =>
      match unload_model s name with
      | none => none
      | some r => cleanup_loop r.2 rest

/-- `cleanup` (lines 419–435): snapshot the resident names, then unload
each. -/
def cleanup (s : LLMState) : Option LLMState :=
  cleanup_loop s (s.loaded_models.map (fun p => p.1))

/-- One external operation against the manager, with its per-call oracle
values baked in (loader results, memory readings, runtime outcomes). -/
inductive AiOp
  | loadOp (name : String) (mtype : ModelType) (force_reload : Bool)
      (availMem : Rat) (loader : Option (Nat × Nat))
      (modelSize memUsage : Rat) (device : String) (quant : Option String)
  | unloadOp (name : String)
  | generateOp (req : GenerationRequest) (defaultModel : String)
      (availMem : Rat) (loader : Option (Nat × Nat))
      (modelSize memUsage : Rat) (device : String) (quant : Option String)
      (promptTokens : Nat) (decoded : Option (Nat × String))
  | embedOp (text : String) (reqName : Option String) (defaultModel : String)
      (availMem : Rat) (loader : Option (Nat × Nat))
      (modelSize memUsage : Rat) (device : String) (quant : Option String)
      (embedding : Option (List Rat))
  | cleanupOp

/-- Run one operation at clock interval `[tStart, tEnd]`: `some s'` is the
manager state when the call returns (normally or by raising), `none` means
the call never completes. -/
def runOp (s : LLMState) (tStart tEnd : Rat) : AiOp → Option LLMState
  | AiOp.loadOp name mtype force availMem loader modelSize memUsage device
      quant =>
      (load_model s name mtype force tStart tEnd availMem loader modelSize
        memUsage device quant).map (fun r => r.2)
  | AiOp.unloadOp name => (unload_model s name).map (fun r => r.2)
  | AiOp.generateOp req dflt availMem loader modelSize memUsage device quant
      promptTokens decoded =>
      match generate_text s req dflt tStart tEnd availMem loader modelSize
          memUsage device quant promptTokens decoded with
      | GenOutcome.hang => none
      | GenOutcome.failed s' => some s'
      | GenOutcome.ok _ s' => some s'
  | AiOp.embedOp text reqName dflt availMem loader modelSize memUsage device
      quant embedding =>
      match get_embedding s text reqName dflt tStart tEnd availMem loader
          modelSize memUsage device quant embedding with
      | EmbedOutcome.hang => none
      | EmbedOutcome.failed s' => some s'
      | EmbedOutcome.ok _ s' => some s'
  | AiOp.cleanupOp => cleanup s

/-- Run a sequence of timed operations. -/
def runOps (s : LLMState) : List ((Rat × Rat) × AiOp) → Option LLMState
  | [] => some s
  | (t, op) :: rest =>
      match runOp s t.1 t.2 op with
      | none => none
      | some s' => runOps s' rest

/-- The clock samples of a timed operation list are non-decreasing,
starting no earlier than `t0`. -/
def TimesMono : Rat → List ((Rat × Rat) × AiOp) → Prop
  | _, [] => True
  | t0, (t, _) :: rest => t0 ≤ t.1 ∧ t.1 ≤ t.2 ∧ TimesMono t.2 rest

/-- The recorded `last_used` of a model, when resident. -/
def lastUsedOf (s : LLMState) (id : String) : Option Rat :=
  (dictLookup s.model_info id).map (fun info => info.last_used)

/-- Every recorded `last_used` is at most `t` (the clock never ran
backwards relative to the stored stamps). -/
def ClockBound (s : LLMState) (t : Rat) : Prop :=
  ∀ id info, dictLookup s.model_info id = some info → info.last_used ≤ t

/-- The three dicts of the manager have the same key set. -/
def SameKeys (s : LLMState) : Prop :=
  ∀ id, (containsKey s.loaded_models id = containsKey s.tokenizers id)
      ∧ (containsKey s.loaded_models id = containsKey s.model_info id)

/-! ### Dictionary lemmas -/

theorem dictLookup_set_self {α : Type} (l : List (String × α)) (k : String)
    (v : α) : dictLookup (dictSet l k v) k = some v := by
  induction l with
  | nil => simp [dictSet, dictLookup]
  | cons p rest ih =>
      obtain ⟨k', v'⟩ := p
      by_cases h : k' = k
      · simp [dictSet, dictLookup, h]
      · simp [dictSet, dictLookup, h, ih]

theorem dictLookup_set_ne {α : Type} (l : List (String × α)) (k j : String)
    (v : α) (h : j ≠ k) : dictLookup (dictSet l k v) j = dictLookup l j := by
  induction l with
  | nil => simp [dictSet, dictLookup, Ne.symm h]
  | cons p rest ih =>
      obtain ⟨k', v'⟩ := p
      by_cases hk : k' = k
      · subst hk
        simp [dictSet, dictLookup, Ne.symm h]
      · by_cases hj : k' = j
        · subst hj
          simp [dictSet, dictLookup, hk, Ne.symm h]
        · simp [dictSet, dictLookup, hk, hj, ih]

theorem containsKey_set {α : Type} (l : List (String × α)) (k j : String)
    (v : α) :
    containsKey (dictSet l k v) j = (containsKey l j || (k == j)) := by
  induction l with
  | nil => simp [dictSet, containsKey]
  | cons p rest ih =>
      obtain ⟨k', v'⟩ := p
      by_cases hk : k' = k
      · subst hk
        by_cases hj : k' = j <;>
          simp [dictSet, containsKey, hj, Bool.or_comm, Bool.or_assoc,
            Bool.or_left_comm]
      · simp [dictSet, containsKey, hk, ih, Bool.or_assoc]

theorem dictDel_cons {α : Type} (k' : String) (v' : α)
    (rest : List (String × α)) (k : String) :
    dictDel ((k', v') :: rest) k =
      if k' = k then dictDel rest k else (k', v') :: dictDel rest k := by
  by_cases h : k' = k <;> simp [dictDel, List.filter_cons, h]

theorem dictLookup_del_self {α : Type} (l : List (String × α)) (k : String) :
    dictLookup (dictDel l k) k = none := by
  induction l with
  | nil => simp [dictDel, dictLookup]
  | cons p rest ih =>
      obtain ⟨k', v'⟩ := p
      rw [dictDel_cons]
      by_cases h : k' = k
      · simp [h, ih]
      · simp [dictLookup, h, ih]

theorem dictLookup_del_ne {α : Type} (l : List (String × α)) (k j : String)
    (h : j ≠ k) : dictLookup (dictDel l k) j = dictLookup l j := by
  induction l with
  | nil => simp [dictDel, dictLookup]
  | cons p rest ih =>
      obtain ⟨k', v'⟩ := p
      rw [dictDel_cons]
      by_cases hk : k' = k
      · subst hk
        simp [dictLookup, Ne.symm h, ih]
      · simp [dictLookup, hk, ih]

theorem containsKey_del_self {α : Type} (l : List (String × α)) (k : String) :
    containsKey (dictDel l k) k = false := by
  induction l with
  | nil => simp [dictDel, containsKey]
  | cons p rest ih =>
      obtain ⟨k', v'⟩ := p
      rw [dictDel_cons]
      by_cases h : k' = k
      · simp [h, ih]
      · simp [containsKey, h, ih]

theorem containsKey_del_ne {α : Type} (l : List (String × α)) (k j : String)
    (h : j ≠ k) : containsKey (dictDel l k) j = containsKey l j := by
  induction l with
  | nil => simp [dictDel, containsKey]
  | cons p rest ih =>
      obtain ⟨k', v'⟩ := p
      rw [dictDel_cons]
      by_cases hk : k' = k
      · subst hk
        simp [containsKey, Ne.symm h, ih]
      · simp [containsKey, hk, ih]

theorem containsKey_eq_isSome {α : Type} (l : List (String × α)) (k : String) :
    containsKey l k = (dictLookup l k).isSome := by
  induction l with
  | nil => simp [containsKey, dictLookup]
  | cons p rest ih =>
      obtain ⟨k', v'⟩ := p
      by_cases h : k' = k
      · simp [containsKey, dictLookup, h]
      · simp [containsKey, dictLookup, h, beq_iff_eq, ih]

theorem dictLookup_mem {α : Type} (l : List (String × α)) (k : String) (v : α)
    (h : dictLookup l k = some v) : (k, v) ∈ l := by
  induction l with
  | nil => simp [dictLookup] at h
  | cons p rest ih =>
      obtain ⟨k', v'⟩ := p
      by_cases hk : k' = k
      · subst hk
        simp [dictLookup] at h
        subst h
        exact List.mem_cons_self _ _
      · simp [dictLookup, hk] at h
        exact List.mem_cons_of_mem _ (ih h)

/-! ### Inversion lemmas for the manager operations -/

/-- `_cleanup_unused_models` invoked while the lock is held either returns
the state unchanged (at most one resident entry) or never completes. -/
theorem cleanup_unused_locked (s : LLMState) (hs : s.lockHeld = true)
    (s' : LLMState) (h : cleanup_unused_models s = some s') : s' = s := by
  unfold cleanup_unused_models at h
  split at h
  · exact (Option.some.inj h).symm
  · split at h
    · exact (Option.some.inj h).symm
    · simp [unload_model, hs] at h

theorem minByLastUsed_eq_none (l : List (String × ModelInfo)) :
    minByLastUsed l = none ↔ l = [] := by
  cases l with
  | nil => simp [minByLastUsed]
  | cons x rest =>
      simp only [minByLastUsed]
      cases minByLastUsed rest with
      | none => simp
      | some y =>
          by_cases h : x.2.last_used ≤ y.2.last_used <;> simp [h]

/-- With the lock held and at least two info entries, the eviction pass
deadlocks: the inner `unload_model` blocks forever on the held lock. -/
theorem cleanup_unused_deadlock (s : LLMState) (hs : s.lockHeld = true)
    (h2 : 2 ≤ s.model_info.length) : cleanup_unused_models s = none := by
  unfold cleanup_unused_models
  rw [if_neg (by omega)]
  rcases hmin : minByLastUsed s.model_info with _ | oldest
  · rw [minByLastUsed_eq_none] at hmin
    rw [hmin] at h2
    simp at h2
  · simp [unload_model, hs]

theorem setLock_false (s : LLMState) (h : s.lockHeld = false) :
    { s with lockHeld := false } = s := by
  obtain ⟨lm, tk, mi, lk⟩ := s
  have hl : lk = false := h
  rw [hl]

/-! Forward evaluation lemmas for `load_model`. -/

theorem load_model_locked (s : LLMState) (name : String) (mtype : ModelType)
    (force_reload : Bool) (tStart tEnd availMem : Rat)
    (loader : Option (Nat × Nat)) (modelSize memUsage : Rat)
    (device : String) (quant : Option String) (hl : s.lockHeld = true) :
    load_model s name mtype force_reload tStart tEnd availMem loader
      modelSize memUsage device quant = none := by
  simp [load_model, hl]

theorem load_model_fast (s : LLMState) (name : String) (mtype : ModelType)
    (tStart tEnd availMem : Rat) (loader : Option (Nat × Nat))
    (modelSize memUsage : Rat) (device : String) (quant : Option String)
    (info : ModelInfo) (hl : s.lockHeld = false)
    (hres : containsKey s.loaded_models name = true)
    (hinfo : dictLookup s.model_info name = some info) :
    load_model s name mtype false tStart tEnd availMem loader modelSize
      memUsage device quant
      = some (true,
          { s with
              model_info :=
                dictSet s.model_info name { info with last_used := tStart } }) := by
  obtain ⟨lm, tk, mi, lk⟩ := s
  have hl' : lk = false := hl
  subst hl'
  simp only [load_model] at *
  simp [hres, hinfo]

theorem load_model_fast_noinfo (s : LLMState) (name : String)
    (mtype : ModelType) (tStart tEnd availMem : Rat)
    (loader : Option (Nat × Nat)) (modelSize memUsage : Rat)
    (device : String) (quant : Option String) (hl : s.lockHeld = false)
    (hres : containsKey s.loaded_models name = true)
    (hinfo : dictLookup s.model_info name = none) :
    load_model s name mtype false tStart tEnd availMem loader modelSize
      memUsage device quant = some (false, s) := by
  obtain ⟨lm, tk, mi, lk⟩ := s
  have hl' : lk = false := hl
  subst hl'
  simp only [load_model] at *
  simp [hres, hinfo]

theorem load_model_loader_fail (s : LLMState) (name : String)
    (mtype : ModelType) (force_reload : Bool) (tStart tEnd availMem : Rat)
    (modelSize memUsage : Rat) (device : String) (quant : Option String)
    (hl : s.lockHeld = false)
    (hfast : containsKey s.loaded_models name = false ∨ force_reload = true)
    (hmem : ¬ availMem < 2 ∨ s.model_info.length ≤ 1) :
    load_model s name mtype force_reload tStart tEnd availMem none modelSize
      memUsage device quant = some (false, s) := by
  obtain ⟨lm, tk, mi, lk⟩ := s
  have hl' : lk = false := hl
  subst hl'
  simp only [load_model]
  rw [if_neg (by simp)]
  rw [if_neg (by rcases hfast with hf | hf <;> simp [hf])]
  rcases hmem with hm | hm
  · rw [if_neg hm]
  · rw [show (if availMem < 2 then
        cleanup_unused_models
          { loaded_models := lm, tokenizers := tk, model_info := mi,
            lockHeld := true }
        else some
          { loaded_models := lm, tokenizers := tk, model_info := mi,
            lockHeld := true })
      = some
          { loaded_models := lm, tokenizers := tk, model_info := mi,
            lockHeld := true } from by
      by_cases hmm : availMem < 2
      · simp [hmm, cleanup_unused_models, hm]
      · simp [hmm]]

theorem load_model_full (s : LLMState) (name : String) (mtype : ModelType)
    (force_reload : Bool) (tStart tEnd availMem : Rat)
    (handles : Nat × Nat) (modelSize memUsage : Rat) (device : String)
    (quant : Option String) (hl : s.lockHeld = false)
    (hfast : containsKey s.loaded_models name = false ∨ force_reload = true)
    (hmem : ¬ availMem < 2 ∨ s.model_info.length ≤ 1) :
    load_model s name mtype force_reload tStart tEnd availMem (some handles)
      modelSize memUsage device quant
      = some (true,
          { s with
              loaded_models := dictSet s.loaded_models name handles.1,
              tokenizers := dictSet s.tokenizers name handles.2,
              model_info := dictSet s.model_info name
                (loadedInfo name mtype tStart tEnd modelSize memUsage device
                  quant) }) := by
  obtain ⟨lm, tk, mi, lk⟩ := s
  have hl' : lk = false := hl
  subst hl'
  simp only [load_model]
  rw [if_neg (by simp)]
  rw [if_neg (by rcases hfast with hf | hf <;> simp [hf])]
  have hclean : (if availMem < 2 then
        cleanup_unused_models
          { loaded_models := lm, tokenizers := tk, model_info := mi,
            lockHeld := true }
        else some
          { loaded_models := lm, tokenizers := tk, model_info := mi,
            lockHeld := true })
      = some
          { loaded_models := lm, tokenizers := tk, model_info := mi,
            lockHeld := true } := by
    rcases hmem with hm | hm
    · simp [hm]
    · by_cases hmm : availMem < 2
      · simp [hmm, cleanup_unused_models, hm]
      · simp [hmm]
  rw [hclean]

/-- The C1 deadlock, in general form: a non-fast-path `load_model` under
memory pressure with at least two info entries never completes. -/
theorem load_model_deadlock (s : LLMState) (name : String)
    (mtype : ModelType) (force_reload : Bool) (tStart tEnd availMem : Rat)
    (loader : Option (Nat × Nat)) (modelSize memUsage : Rat)
    (device : String) (quant : Option String) (hl : s.lockHeld = false)
    (hfast : containsKey s.loaded_models name = false ∨ force_reload = true)
    (hmemlow : availMem < 2) (h2 : 2 ≤ s.model_info.length) :
    load_model s name mtype force_reload tStart tEnd availMem loader
      modelSize memUsage device quant = none := by
  obtain ⟨lm, tk, mi, lk⟩ := s
  have hl' : lk = false := hl
  subst hl'
  simp only [load_model]
  rw [if_neg (by simp)]
  rw [if_neg (by rcases hfast with hf | hf <;> simp [hf])]
  rw [if_pos hmemlow]
  have hdead := cleanup_unused_deadlock
    { loaded_models := lm, tokenizers := tk, model_info := mi,
      lockHeld := true } rfl (by simpa using h2)
  rw [hdead]

/-- Case analysis of a `load_model` call that returns. -/
theorem load_model_cases (s : LLMState) (name : String) (mtype : ModelType)
    (force_reload : Bool) (tStart tEnd availMem : Rat)
    (loader : Option (Nat × Nat)) (modelSize memUsage : Rat)
    (device : String) (quant : Option String) (b : Bool) (s' : LLMState)
    (h : load_model s name mtype force_reload tStart tEnd availMem loader
      modelSize memUsage device quant = some (b, s')) :
    s.lockHeld = false ∧
      ((∃ info, containsKey s.loaded_models name = true
          ∧ force_reload = false
          ∧ dictLookup s.model_info name = some info ∧ b = true
          ∧ s' = { s with model_info := dictSet s.model_info name { info with last_used := tStart } })
      ∨ (containsKey s.loaded_models name = true ∧ force_reload = false
          ∧ dictLookup s.model_info name = none ∧ b = false ∧ s' = s)
      ∨ ((containsKey s.loaded_models name = false ∨ force_reload = true)
          ∧ loader = none ∧ b = false ∧ s' = s)
      ∨ (∃ handles,
          (containsKey s.loaded_models name = false ∨ force_reload = true)
          ∧ loader = some handles ∧ b = true
          ∧ s' = { s with
              loaded_models := dictSet s.loaded_models name handles.1,
              tokenizers := dictSet s.tokenizers name handles.2,
              model_info := dictSet s.model_info name
                (loadedInfo name mtype tStart tEnd modelSize memUsage device
                  quant) })) := by
  by_cases hl : s.lockHeld = true
  · rw [load_model_locked _ _ _ _ _ _ _ _ _ _ _ _ hl] at h
    cases h
  · have hl' : s.lockHeld = false := by simpa using hl
    refine ⟨hl', ?_⟩
    by_cases hres : containsKey s.loaded_models name = true
    · by_cases hforce : force_reload = true
      · -- forced reload: slow path
        by_cases hmem : availMem < 2 ∧ 2 ≤ s.model_info.length
        · rw [load_model_deadlock _ _ _ _ _ _ _ _ _ _ _ _ hl'
            (Or.inr hforce) hmem.1 hmem.2] at h
          cases h
        · have hmem' : ¬ availMem < 2 ∨ s.model_info.length ≤ 1 := by
            rcases Decidable.not_and_iff_or_not.mp hmem with hm | hm
            · exact Or.inl hm
            · exact Or.inr (by omega)
          rcases hld : loader with _ | handles
          · rw [hld, load_model_loader_fail _ _ _ _ _ _ _ _ _ _ _ hl'
              (Or.inr hforce) hmem'] at h
            obtain ⟨hb, hs'⟩ := Prod.ext_iff.mp (Option.some.inj h)
            exact Or.inr (Or.inr (Or.inl ⟨Or.inr hforce, rfl, hb.symm,
              hs'.symm⟩))
          · rw [hld, load_model_full _ _ _ _ _ _ _ _ _ _ _ _ hl'
              (Or.inr hforce) hmem'] at h
            obtain ⟨hb, hs'⟩ := Prod.ext_iff.mp (Option.some.inj h)
            exact Or.inr (Or.inr (Or.inr ⟨handles, Or.inr hforce, rfl,
              hb.symm, hs'.symm⟩))
      · -- fast path
        have hforce' : force_reload = false := by simpa using hforce
        subst hforce'
        rcases hinfo : dictLookup s.model_info name with _ | info
        · rw [load_model_fast_noinfo _ _ _ _ _ _ _ _ _ _ _ hl' hres hinfo]
            at h
          obtain ⟨hb, hs'⟩ := Prod.ext_iff.mp (Option.some.inj h)
          exact Or.inr (Or.inl ⟨hres, rfl, rfl, hb.symm, hs'.symm⟩)
        · rw [load_model_fast _ _ _ _ _ _ _ _ _ _ _ info hl' hres hinfo]
            at h
          obtain ⟨hb, hs'⟩ := Prod.ext_iff.mp (Option.some.inj h)
          exact Or.inl ⟨info, hres, rfl, rfl, hb.symm, hs'.symm⟩
    · -- not resident: slow path
      have hres' : containsKey s.loaded_models name = false := by
        simpa using hres
      by_cases hmem : availMem < 2 ∧ 2 ≤ s.model_info.length
      · rw [load_model_deadlock _ _ _ _ _ _ _ _ _ _ _ _ hl'
          (Or.inl hres') hmem.1 hmem.2] at h
        cases h
      · have hmem' : ¬ availMem < 2 ∨ s.model_info.length ≤ 1 := by
          rcases Decidable.not_and_iff_or_not.mp hmem with hm | hm
          · exact Or.inl hm
          · exact Or.inr (by omega)
        rcases hld : loader with _ | handles
        · rw [hld, load_model_loader_fail _ _ _ _ _ _ _ _ _ _ _ hl'
            (Or.inl hres') hmem'] at h
          obtain ⟨hb, hs'⟩ := Prod.ext_iff.mp (Option.some.inj h)
          exact Or.inr (Or.inr (Or.inl ⟨Or.inl hres', rfl, hb.symm,
            hs'.symm⟩))
        · rw [hld, load_model_full _ _ _ _ _ _ _ _ _ _ _ _ hl'
            (Or.inl hres') hmem'] at h
          obtain ⟨hb, hs'⟩ := Prod.ext_iff.mp (Option.some.inj h)
          exact Or.inr (Or.inr (Or.inr ⟨handles, Or.inl hres', rfl,
            hb.symm, hs'.symm⟩))

/-! Forward evaluation lemmas for `unload_model`. -/

theorem unload_model_locked (s : LLMState) (name : String)
    (hl : s.lockHeld = true) : unload_model s name = none := by
  simp [unload_model, hl]

theorem unload_model_not_resident (s : LLMState) (name : String)
    (hl : s.lockHeld = false)
    (h : containsKey s.loaded_models name = false) :
    unload_model s name = some (false, s) := by
  obtain ⟨lm, tk, mi, lk⟩ := s
  have hl' : lk = false := hl
  subst hl'
  simp [unload_model, unload_model_body, h]

theorem unload_model_resident (s : LLMState) (name : String)
    (hl : s.lockHeld = false)
    (h : containsKey s.loaded_models name = true) :
    unload_model s name = some (true,
      { loaded_models := dictDel s.loaded_models name,
        tokenizers := if containsKey s.tokenizers name = true then
          dictDel s.tokenizers name else s.tokenizers,
        model_info := if containsKey s.model_info name = true then
          dictDel s.model_info name else s.model_info,
        lockHeld := false }) := by
  obtain ⟨lm, tk, mi, lk⟩ := s
  have hl' : lk = false := hl
  subst hl'
  by_cases ht : containsKey tk name = true <;>
    by_cases hi : containsKey mi name = true <;>
      simp [unload_model, unload_model_body, h, ht, hi]

/-- Case analysis of an `unload_model` call that returns. -/
theorem unload_model_cases (s : LLMState) (name : String) (b : Bool)
    (s' : LLMState) (h : unload_model s name = some (b, s')) :
    s.lockHeld = false ∧
      ((containsKey s.loaded_models name = false ∧ b = false ∧ s' = s)
      ∨ (containsKey s.loaded_models name = true ∧ b = true
          ∧ s' = { loaded_models := dictDel s.loaded_models name,
                   tokenizers := if containsKey s.tokenizers name = true then
                     dictDel s.tokenizers name else s.tokenizers,
                   model_info := if containsKey s.model_info name = true then
                     dictDel s.model_info name else s.model_info,
                   lockHeld := false })) := by
  by_cases hl : s.lockHeld = true
  · rw [unload_model_locked s name hl] at h
    cases h
  · have hl' : s.lockHeld = false := by simpa using hl
    refine ⟨hl', ?_⟩
    by_cases hres : containsKey s.loaded_models name = true
    · rw [unload_model_resident s name hl' hres] at h
      obtain ⟨hb, hs'⟩ := Prod.ext_iff.mp (Option.some.inj h)
      exact Or.inr ⟨hres, hb.symm, hs'.symm⟩
    · have hres' : containsKey s.loaded_models name = false := by
        simpa using hres
      rw [unload_model_not_resident s name hl' hres'] at h
      obtain ⟨hb, hs'⟩ := Prod.ext_iff.mp (Option.some.inj h)
      exact Or.inl ⟨hres', hb.symm, hs'.symm⟩

/-- The usage-stats mutation of `generate_text` lines 248–250. -/
def statsUpd (s : LLMState) (name : String) (info : ModelInfo)
    (t : Rat) : LLMState :=
  { s with model_info := dictSet s.model_info name { info with last_used := t, use_count := info.use_count + 1 } }

/-- Structure of any `generate_text` call: it hangs, or it runs against a
base state `s1` (the input state, or the state after an on-demand load),
and then either fails before the stats update or performs the stats update
and fails/succeeds from there. -/
theorem generate_text_state (s : LLMState) (req : GenerationRequest)
    (dflt : String) (tS tE am : Rat) (ld : Option (Nat × Nat)) (ms mu : Rat)
    (dev : String) (q : Option String) (pt : Nat)
    (d : Option (Nat × String)) (out : GenOutcome)
    (h : generate_text s req dflt tS tE am ld ms mu dev q pt d = out) :
    out = GenOutcome.hang
    ∨ ∃ s1, (s1 = s ∨ ∃ b, load_model s (resolveModelName req.model_name
          dflt) ModelType.llm false tS tE am ld ms mu dev q = some (b, s1))
        ∧ (out = GenOutcome.failed s1
          ∨ ∃ info, dictLookup s1.model_info (resolveModelName
                req.model_name dflt) = some info
              ∧ (out = GenOutcome.failed (statsUpd s1 (resolveModelName
                    req.model_name dflt) info tS)
                ∨ ∃ gt, d = some gt
                    ∧ out = GenOutcome.ok (mkGenResponse (resolveModelName
                        req.model_name dflt) pt gt.1 gt.2 tS tE
                        req.max_tokens) (statsUpd s1 (resolveModelName
                        req.model_name dflt) info tS))) := by
  subst h
  set nm := resolveModelName req.model_name dflt with hnm
  by_cases hres : containsKey s.loaded_models nm = true
  · rcases h2 : dictLookup s.loaded_models nm with _ | m
    · rw [containsKey_eq_isSome, h2] at hres
      simp at hres
    · rcases h3 : dictLookup s.tokenizers nm with _ | tok
      · refine Or.inr ⟨s, Or.inl rfl, Or.inl ?_⟩
        simp [generate_text, ← hnm, hres, h2, h3]
      · rcases h4 : dictLookup s.model_info nm with _ | info
        · refine Or.inr ⟨s, Or.inl rfl, Or.inl ?_⟩
          simp [generate_text, ← hnm, hres, h2, h3, h4]
        · rcases d with _ | gt
          · refine Or.inr ⟨s, Or.inl rfl, Or.inr ⟨info, h4, Or.inl ?_⟩⟩
            simp [generate_text, statsUpd, ← hnm, hres, h2, h3, h4]
          · refine Or.inr ⟨s, Or.inl rfl, Or.inr ⟨info, h4,
              Or.inr ⟨gt, rfl, ?_⟩⟩⟩
            simp [generate_text, statsUpd, ← hnm, hres, h2, h3, h4]
  · have hres' : containsKey s.loaded_models nm = false := by simpa using hres
    rcases hld : load_model s nm ModelType.llm false tS tE am ld ms mu dev q
      with _ | ⟨b, s1⟩
    · exact Or.inl (by simp [generate_text, ← hnm, hres', hld])
    · rcases b with _ | _
      · refine Or.inr ⟨s1, Or.inr ⟨false, rfl⟩, Or.inl ?_⟩
        simp [generate_text, ← hnm, hres', hld]
      · rcases h2 : dictLookup s1.loaded_models nm with _ | m
        · refine Or.inr ⟨s1, Or.inr ⟨true, rfl⟩, Or.inl ?_⟩
          simp [generate_text, ← hnm, hres', hld, h2]
        · rcases h3 : dictLookup s1.tokenizers nm with _ | tok
          · refine Or.inr ⟨s1, Or.inr ⟨true, rfl⟩, Or.inl ?_⟩
            simp [generate_text, ← hnm, hres', hld, h2, h3]
          · rcases h4 : dictLookup s1.model_info nm with _ | info
            · refine Or.inr ⟨s1, Or.inr ⟨true, rfl⟩, Or.inl ?_⟩
              simp [generate_text, ← hnm, hres', hld, h2, h3, h4]
            · rcases d with _ | gt
              · refine Or.inr ⟨s1, Or.inr ⟨true, rfl⟩, Or.inr ⟨info, h4,
                  Or.inl ?_⟩⟩
                simp [generate_text, statsUpd, ← hnm, hres', hld, h2, h3,
                  h4]
              · refine Or.inr ⟨s1, Or.inr ⟨true, rfl⟩, Or.inr ⟨info, h4,
                  Or.inr ⟨gt, rfl, ?_⟩⟩⟩
                simp [generate_text, statsUpd, ← hnm, hres', hld, h2, h3,
                  h4]

/-- Structure of any `get_embedding` call: it hangs, or it runs against the
input state or the state after an on-demand load, and never mutates that
state further (no usage-stats update exists on this path). -/
theorem get_embedding_state (s : LLMState) (text : String)
    (reqName : Option String) (dflt : String) (tS tE am : Rat)
    (ld : Option (Nat × Nat)) (ms mu : Rat) (dev : String)
    (q : Option String) (emb : Option (List Rat)) (out : EmbedOutcome)
    (h : get_embedding s text reqName dflt tS tE am ld ms mu dev q emb
      = out) :
    out = EmbedOutcome.hang
    ∨ ∃ s1, (s1 = s ∨ ∃ b, load_model s (resolveModelName reqName dflt)
          ModelType.embedding false tS tE am ld ms mu dev q = some (b, s1))
        ∧ (out = EmbedOutcome.failed s1
          ∨ ∃ v, out = EmbedOutcome.ok v s1) := by
  subst h
  set nm := resolveModelName reqName dflt with hnm
  by_cases hres : containsKey s.loaded_models nm = true
  · rcases h2 : dictLookup s.loaded_models nm with _ | m
    · rw [containsKey_eq_isSome, h2] at hres
      simp at hres
    · rcases h3 : dictLookup s.tokenizers nm with _ | tok
      · refine Or.inr ⟨s, Or.inl rfl, Or.inl ?_⟩
        simp [get_embedding, ← hnm, hres, h2, h3]
      · rcases emb with _ | v
        · refine Or.inr ⟨s, Or.inl rfl, Or.inl ?_⟩
          simp [get_embedding, ← hnm, hres, h2, h3]
        · refine Or.inr ⟨s, Or.inl rfl, Or.inr ⟨v, ?_⟩⟩
          simp [get_embedding, ← hnm, hres, h2, h3]
  · have hres' : containsKey s.loaded_models nm = false := by simpa using hres
    rcases hld : load_model s nm ModelType.embedding false tS tE am ld ms mu
      dev q with _ | ⟨b, s1⟩
    · exact Or.inl (by simp [get_embedding, ← hnm, hres', hld])
    · rcases b with _ | _
      · refine Or.inr ⟨s1, Or.inr ⟨false, rfl⟩, Or.inl ?_⟩
        simp [get_embedding, ← hnm, hres', hld]
      · rcases h2 : dictLookup s1.loaded_models nm with _ | m
        · refine Or.inr ⟨s1, Or.inr ⟨true, rfl⟩, Or.inl ?_⟩
          simp [get_embedding, ← hnm, hres', hld, h2]
        · rcases h3 : dictLookup s1.tokenizers nm with _ | tok
          · refine Or.inr ⟨s1, Or.inr ⟨true, rfl⟩, Or.inl ?_⟩
            simp [get_embedding, ← hnm, hres', hld, h2, h3]
          · rcases emb with _ | v
            · refine Or.inr ⟨s1, Or.inr ⟨true, rfl⟩, Or.inl ?_⟩
              simp [get_embedding, ← hnm, hres', hld, h2, h3]
            · refine Or.inr ⟨s1, Or.inr ⟨true, rfl⟩, Or.inr ⟨v, ?_⟩⟩
              simp [get_embedding, ← hnm, hres', hld, h2, h3]

/-! ### Where `last_used` values can come from -/

theorem load_model_values (s : LLMState) (name : String) (mtype : ModelType)
    (force_reload : Bool) (tStart tEnd availMem : Rat)
    (loader : Option (Nat × Nat)) (modelSize memUsage : Rat)
    (device : String) (quant : Option String) (b : Bool) (s' : LLMState)
    (h : load_model s name mtype force_reload tStart tEnd availMem loader
      modelSize memUsage device quant = some (b, s')) (id : String)
    (v' : Rat) (hv : lastUsedOf s' id = some v') :
    lastUsedOf s id = some v' ∨ v' = tStart ∨ v' = tEnd := by
  obtain ⟨-, hc⟩ := load_model_cases s name mtype force_reload tStart tEnd
    availMem loader modelSize memUsage device quant b s' h
  rcases hc with ⟨info, -, -, -, -, rfl⟩ | ⟨-, -, -, -, rfl⟩
    | ⟨-, -, -, rfl⟩ | ⟨handles, -, -, -, rfl⟩
  · by_cases hid : id = name
    · subst hid
      unfold lastUsedOf at hv
      dsimp only at hv
      rw [dictLookup_set_self] at hv
      right
      left
      simpa using hv.symm
    · unfold lastUsedOf at hv ⊢
      dsimp only at hv
      rw [dictLookup_set_ne _ _ _ _ hid] at hv
      exact Or.inl hv
  · exact Or.inl hv
  · exact Or.inl hv
  · by_cases hid : id = name
    · subst hid
      unfold lastUsedOf at hv
      dsimp only at hv
      rw [dictLookup_set_self] at hv
      right
      right
      simpa [loadedInfo] using hv.symm
    · unfold lastUsedOf at hv ⊢
      dsimp only at hv
      rw [dictLookup_set_ne _ _ _ _ hid] at hv
      exact Or.inl hv

theorem unload_model_values (s : LLMState) (name : String) (b : Bool)
    (s' : LLMState) (h : unload_model s name = some (b, s')) (id : String)
    (v' : Rat) (hv : lastUsedOf s' id = some v') :
    lastUsedOf s id = some v' := by
  obtain ⟨-, hc⟩ := unload_model_cases s name b s' h
  rcases hc with ⟨-, -, rfl⟩ | ⟨-, -, rfl⟩
  · exact hv
  · unfold lastUsedOf at hv ⊢
    by_cases hi : containsKey s.model_info name = true <;>
      simp only [hi, if_true, if_false, Bool.false_eq_true] at hv
    · by_cases hid : id = name
      · subst hid
        rw [dictLookup_del_self] at hv
        cases hv
      · rwa [dictLookup_del_ne _ _ _ hid] at hv
    · exact hv

theorem statsUpd_values (s : LLMState) (name : String) (info : ModelInfo)
    (t : Rat) (id : String) (v' : Rat)
    (hv : lastUsedOf (statsUpd s name info t) id = some v') :
    lastUsedOf s id = some v' ∨ v' = t := by
  unfold lastUsedOf statsUpd at hv
  dsimp only at hv
  by_cases hid : id = name
  · subst hid
    rw [dictLookup_set_self] at hv
    right
    simpa using hv.symm
  · unfold lastUsedOf
    rw [dictLookup_set_ne _ _ _ _ hid] at hv
    exact Or.inl hv

theorem cleanup_loop_values (names : List String) (s s' : LLMState)
    (h : cleanup_loop s names = some s') (id : String) (v' : Rat)
    (hv : lastUsedOf s' id = some v') : lastUsedOf s id = some v' := by
  induction names generalizing s with
  | nil =>
      unfold cleanup_loop at h
      cases Option.some.inj h
      exact hv
  | cons name rest ih =>
      unfold cleanup_loop at h
      rcases hu : unload_model s name with _ | r
      · rw [hu] at h
        cases h
      · rw [hu] at h
        exact unload_model_values s name r.1 r.2 (by rw [hu]) id v'
          (ih r.2 h)

/-- Values reachable through the `EnsureLoaded` step. -/
theorem ensure_values (s s1 : LLMState) (nm : String) (mt : ModelType)
    (tS tE am : Rat) (ld : Option (Nat × Nat)) (ms mu : Rat) (dev : String)
    (q : Option String)
    (hreach : s1 = s ∨ ∃ b, load_model s nm mt false tS tE am ld ms mu dev
      q = some (b, s1)) (id : String) (v' : Rat)
    (hw : lastUsedOf s1 id = some v') :
    lastUsedOf s id = some v' ∨ v' = tS ∨ v' = tE := by
  rcases hreach with rfl | ⟨b, hld⟩
  · exact Or.inl hw
  · exact load_model_values s nm mt false tS tE am ld ms mu dev q b s1 hld
      id v' hw

theorem runOp_values (s : LLMState) (tStart tEnd : Rat) (op : AiOp)
    (s' : LLMState) (h : runOp s tStart tEnd op = some s') (id : String)
    (v' : Rat) (hv : lastUsedOf s' id = some v') :
    lastUsedOf s id = some v' ∨ v' = tStart ∨ v' = tEnd := by
  cases op with
  | loadOp name mtype force availMem loader modelSize memUsage device
      quant =>
      rcases hld : load_model s name mtype force tStart tEnd availMem loader
        modelSize memUsage device quant with _ | r
      · rw [runOp, hld] at h
        cases h
      · rw [runOp, hld] at h
        cases Option.some.inj h
        exact load_model_values s name mtype force tStart tEnd availMem
          loader modelSize memUsage device quant r.1 r.2 (by rw [hld]) id v'
          hv
  | unloadOp name =>
      rcases hu : unload_model s name with _ | r
      · rw [runOp, hu] at h
        cases h
      · rw [runOp, hu] at h
        cases Option.some.inj h
        exact Or.inl (unload_model_values s name r.1 r.2 (by rw [hu]) id v'
          hv)
  | generateOp req dflt availMem loader modelSize memUsage device quant
      promptTokens decoded =>
      rcases hg : generate_text s req dflt tStart tEnd availMem loader
        modelSize memUsage device quant promptTokens decoded
        with _ | s2 | ⟨r, s2⟩
      · simp [runOp, hg] at h
      · simp only [runOp, hg] at h
        cases Option.some.inj h
        rcases generate_text_state s req dflt tStart tEnd availMem loader
          modelSize memUsage device quant promptTokens decoded _ hg with
          hout | ⟨s1, hreach, hrest⟩
        · cases hout
        · rcases hrest with heq | ⟨info, hinfo, heq | ⟨gt0, hd0, heq⟩⟩
          · cases heq
            exact ensure_values s _ _ _ tStart tEnd availMem loader
              modelSize memUsage device quant hreach id v' hv
          · cases heq
            rcases statsUpd_values _ _ info tStart id v' hv with hw | hw
            · exact ensure_values s _ _ _ tStart tEnd availMem loader
                modelSize memUsage device quant hreach id v' hw
            · exact Or.inr (Or.inl hw)
          · cases heq
      · simp only [runOp, hg] at h
        cases Option.some.inj h
        rcases generate_text_state s req dflt tStart tEnd availMem loader
          modelSize memUsage device quant promptTokens decoded _ hg with
          hout | ⟨s1, hreach, hrest⟩
        · cases hout
        · rcases hrest with heq | ⟨info, hinfo, heq | ⟨gt0, hd0, heq⟩⟩
          · cases heq
          · cases heq
          · cases heq
            rcases statsUpd_values _ _ info tStart id v' hv with hw | hw
            · exact ensure_values s _ _ _ tStart tEnd availMem loader
                modelSize memUsage device quant hreach id v' hw
            · exact Or.inr (Or.inl hw)
  | embedOp text reqName dflt availMem loader modelSize memUsage device
      quant embedding =>
      rcases he : get_embedding s text reqName dflt tStart tEnd availMem
        loader modelSize memUsage device quant embedding
        with _ | s2 | ⟨v, s2⟩
      · simp [runOp, he] at h
      · simp only [runOp, he] at h
        cases Option.some.inj h
        rcases get_embedding_state s text reqName dflt tStart tEnd availMem
          loader modelSize memUsage device quant embedding _ he with
          hout | ⟨s1, hreach, hrest⟩
        · cases hout
        · rcases hrest with heq | ⟨v0, heq⟩
          · cases heq
            exact ensure_values s _ _ _ tStart tEnd availMem loader
              modelSize memUsage device quant hreach id v' hv
          · cases heq
      · simp only [runOp, he] at h
        cases Option.some.inj h
        rcases get_embedding_state s text reqName dflt tStart tEnd availMem
          loader modelSize memUsage device quant embedding _ he with
          hout | ⟨s1, hreach, hrest⟩
        · cases hout
        · rcases hrest with heq | ⟨v0, heq⟩
          · cases heq
          · cases heq
            exact ensure_values s _ _ _ tStart tEnd availMem loader
              modelSize memUsage device quant hreach id v' hv
  | cleanupOp =>
      simp only [runOp, cleanup] at h
      exact Or.inl (cleanup_loop_values _ s s' h id v' hv)

/-! ### Clock-bound propagation -/

theorem clockBound_mono (s : LLMState) (t t' : Rat) (h : ClockBound s t)
    (htt : t ≤ t') : ClockBound s t' :=
  fun id info hlook => le_trans (h id info hlook) htt

theorem runOp_clockBound (s : LLMState) (tS tE : Rat) (op : AiOp)
    (s' : LLMState) (h : runOp s tS tE op = some s') (hcb : ClockBound s tS)
    (hts : tS ≤ tE) : ClockBound s' tE := by
  intro id info hlook
  have hv : lastUsedOf s' id = some info.last_used := by
    unfold lastUsedOf
    rw [hlook]
    rfl
  rcases runOp_values s tS tE op s' h id _ hv with hw | hw | hw
  · unfold lastUsedOf at hw
    rcases hlk : dictLookup s.model_info id with _ | info0
    · rw [hlk] at hw
      cases hw
    · rw [hlk] at hw
      have hle := hcb id info0 hlk
      have heq : info0.last_used = info.last_used := by simpa using hw
      exact le_trans (le_of_eq heq.symm) (le_trans hle hts)
  · rw [hw]
    exact hts
  · exact le_of_eq hw

/-- The clock value after executing a timed operation list. -/
def endTime : Rat → List ((Rat × Rat) × AiOp) → Rat
  | t0, [] => t0
  | _, (t, _) :: rest => endTime t.2 rest

/-- Induction core for `last_used` monotonicity: after a well-timed run,
every stamp is bounded by the final clock, and every stamp either is the
identifier's initial stamp or was written no earlier than `t0`. -/
theorem runOps_invariant (l : List ((Rat × Rat) × AiOp)) :
    ∀ s t0 s', ClockBound s t0 → TimesMono t0 l → runOps s l = some s' →
      ClockBound s' (endTime t0 l)
      ∧ (∀ id v', lastUsedOf s' id = some v'
          → lastUsedOf s id = some v' ∨ t0 ≤ v') := by
  induction l with
  | nil =>
      intro s t0 s' hcb hm hr
      cases Option.some.inj hr
      exact ⟨hcb, fun id v' hv => Or.inl hv⟩
  | cons p rest ih =>
      intro s t0 s' hcb hm hr
      obtain ⟨⟨tS, tE⟩, op⟩ := p
      obtain ⟨h0S, hSE, hmrest⟩ := hm
      unfold runOps at hr
      rcases h1 : runOp s tS tE op with _ | s1
      · rw [h1] at hr
        cases hr
      · rw [h1] at hr
        have hcb1 : ClockBound s1 tE :=
          runOp_clockBound s tS tE op s1 h1
            (clockBound_mono s t0 tS hcb h0S) hSE
        obtain ⟨hcb', hvals⟩ := ih s1 tE s' hcb1 hmrest hr
        refine ⟨hcb', ?_⟩
        intro id v' hv
        rcases hvals id v' hv with hw | hw
        · rcases runOp_values s tS tE op s1 h1 id v' hw with hw2 | hw2 | hw2
          · exact Or.inl hw2
          · exact Or.inr (hw2 ▸ h0S)
          · exact Or.inr (hw2 ▸ le_trans h0S hSE)
        · exact Or.inr (le_trans (le_trans h0S hSE) hw)

/-! ### SameKeys preservation -/

theorem sameKeys_load (s : LLMState) (name : String) (mtype : ModelType)
    (force_reload : Bool) (tStart tEnd availMem : Rat)
    (loader : Option (Nat × Nat)) (modelSize memUsage : Rat)
    (device : String) (quant : Option String) (b : Bool) (s' : LLMState)
    (h : load_model s name mtype force_reload tStart tEnd availMem loader
      modelSize memUsage device quant = some (b, s'))
    (hsk : SameKeys s) : SameKeys s' := by
  obtain ⟨-, hc⟩ := load_model_cases s name mtype force_reload tStart tEnd
    availMem loader modelSize memUsage device quant b s' h
  rcases hc with ⟨info, hres, -, hinfo, -, rfl⟩ | ⟨-, -, -, -, rfl⟩
    | ⟨-, -, -, rfl⟩ | ⟨handles, -, -, -, rfl⟩
  · intro id
    refine ⟨(hsk id).1, ?_⟩
    show containsKey s.loaded_models id
      = containsKey (dictSet s.model_info name _) id
    rw [containsKey_set]
    by_cases hid : name = id
    · subst hid
      simp [hres]
    · have : (name == id) = false := by
        simpa using hid
      rw [this, Bool.or_false]
      exact (hsk id).2
  · exact hsk
  · exact hsk
  · intro id
    constructor
    · show containsKey (dictSet s.loaded_models name _) id
        = containsKey (dictSet s.tokenizers name _) id
      rw [containsKey_set, containsKey_set, (hsk id).1]
    · show containsKey (dictSet s.loaded_models name _) id
        = containsKey (dictSet s.model_info name _) id
      rw [containsKey_set, containsKey_set, (hsk id).2]

theorem sameKeys_unload (s : LLMState) (name : String) (b : Bool)
    (s' : LLMState) (h : unload_model s name = some (b, s'))
    (hsk : SameKeys s) : SameKeys s' := by
  obtain ⟨-, hc⟩ := unload_model_cases s name b s' h
  rcases hc with ⟨-, -, rfl⟩ | ⟨hres, -, rfl⟩
  · exact hsk
  · intro id
    by_cases hid : id = name
    · subst hid
      have htok : containsKey s.tokenizers id = true :=
        ((hsk id).1.symm).trans hres
      have hinf : containsKey s.model_info id = true :=
        ((hsk id).2.symm).trans hres
      constructor
      · show containsKey (dictDel s.loaded_models id) id
          = containsKey (if containsKey s.tokenizers id = true then
              dictDel s.tokenizers id else s.tokenizers) id
        rw [containsKey_del_self, if_pos htok, containsKey_del_self]
      · show containsKey (dictDel s.loaded_models id) id
          = containsKey (if containsKey s.model_info id = true then
              dictDel s.model_info id else s.model_info) id
        rw [containsKey_del_self, if_pos hinf, containsKey_del_self]
    · constructor
      · show containsKey (dictDel s.loaded_models name) id
          = containsKey (if containsKey s.tokenizers name = true then
              dictDel s.tokenizers name else s.tokenizers) id
        rw [containsKey_del_ne _ _ _ hid]
        by_cases ht : containsKey s.tokenizers name = true
        · rw [if_pos ht, containsKey_del_ne _ _ _ hid]
          exact (hsk id).1
        · rw [if_neg ht]
          exact (hsk id).1
      · show containsKey (dictDel s.loaded_models name) id
          = containsKey (if containsKey s.model_info name = true then
              dictDel s.model_info name else s.model_info) id
        rw [containsKey_del_ne _ _ _ hid]
        by_cases hi : containsKey s.model_info name = true
        · rw [if_pos hi, containsKey_del_ne _ _ _ hid]
          exact (hsk id).2
        · rw [if_neg hi]
          exact (hsk id).2

theorem sameKeys_statsUpd (s : LLMState) (name : String) (info : ModelInfo)
    (t : Rat) (hinfo : dictLookup s.model_info name = some info)
    (hsk : SameKeys s) : SameKeys (statsUpd s name info t) := by
  intro id
  refine ⟨(hsk id).1, ?_⟩
  show containsKey s.loaded_models id
    = containsKey (dictSet s.model_info name _) id
  rw [containsKey_set]
  by_cases hid : name = id
  · subst hid
    have hinf : containsKey s.model_info name = true := by
      rw [containsKey_eq_isSome, hinfo]
      rfl
    rw [(hsk name).2, hinf]
    simp
  · have hne : (name == id) = false := by simpa using hid
    rw [hne, Bool.or_false]
    exact (hsk id).2

theorem sameKeys_cleanup_loop (names : List String) (s s' : LLMState)
    (h : cleanup_loop s names = some s') (hsk : SameKeys s) :
    SameKeys s' := by
  induction names generalizing s with
  | nil =>
      unfold cleanup_loop at h
      cases Option.some.inj h
      exact hsk
  | cons name rest ih =>
      unfold cleanup_loop at h
      rcases hu : unload_model s name with _ | r
      · rw [hu] at h
        cases h
      · rw [hu] at h
        exact ih r.2 h (sameKeys_unload s name r.1 r.2 (by rw [hu]) hsk)

/-- SameKeys through the `EnsureLoaded` step. -/
theorem sameKeys_ensure (s s1 : LLMState) (nm : String) (mt : ModelType)
    (tS tE am : Rat) (ld : Option (Nat × Nat)) (ms mu : Rat) (dev : String)
    (q : Option String)
    (hreach : s1 = s ∨ ∃ b, load_model s nm mt false tS tE am ld ms mu dev
      q = some (b, s1)) (hsk : SameKeys s) : SameKeys s1 := by
  rcases hreach with rfl | ⟨b, hld⟩
  · exact hsk
  · exact sameKeys_load s nm mt false tS tE am ld ms mu dev q b s1 hld hsk

theorem sameKeys_runOp (s : LLMState) (tStart tEnd : Rat) (op : AiOp)
    (s' : LLMState) (h : runOp s tStart tEnd op = some s')
    (hsk : SameKeys s) : SameKeys s' := by
  cases op with
  | loadOp name mtype force availMem loader modelSize memUsage device
      quant =>
      rcases hld : load_model s name mtype force tStart tEnd availMem loader
        modelSize memUsage device quant with _ | r
      · rw [runOp, hld] at h
        cases h
      · rw [runOp, hld] at h
        cases Option.some.inj h
        exact sameKeys_load s name mtype force tStart tEnd availMem loader
          modelSize memUsage device quant r.1 r.2 (by rw [hld]) hsk
  | unloadOp name =>
      rcases hu : unload_model s name with _ | r
      · rw [runOp, hu] at h
        cases h
      · rw [runOp, hu] at h
        cases Option.some.inj h
        exact sameKeys_unload s name r.1 r.2 (by rw [hu]) hsk
  | generateOp req dflt availMem loader modelSize memUsage device quant
      promptTokens decoded =>
      rcases hg : generate_text s req dflt tStart tEnd availMem loader
        modelSize memUsage device quant promptTokens decoded
        with _ | s2 | ⟨r, s2⟩
      · simp [runOp, hg] at h
      · simp only [runOp, hg] at h
        cases Option.some.inj h
        rcases generate_text_state s req dflt tStart tEnd availMem loader
          modelSize memUsage device quant promptTokens decoded _ hg with
          hout | ⟨s1, hreach, hrest⟩
        · cases hout
        · rcases hrest with heq | ⟨info, hinfo, heq | ⟨gt0, hd0, heq⟩⟩
          · cases heq
            exact sameKeys_ensure s _ _ _ tStart tEnd availMem loader
              modelSize memUsage device quant hreach hsk
          · cases heq
            exact sameKeys_statsUpd _ _ info tStart hinfo
              (sameKeys_ensure s _ _ _ tStart tEnd availMem loader
                modelSize memUsage device quant hreach hsk)
          · cases heq
      · simp only [runOp, hg] at h
        cases Option.some.inj h
        rcases generate_text_state s req dflt tStart tEnd availMem loader
          modelSize memUsage device quant promptTokens decoded _ hg with
          hout | ⟨s1, hreach, hrest⟩
        · cases hout
        · rcases hrest with heq | ⟨info, hinfo, heq | ⟨gt0, hd0, heq⟩⟩
          · cases heq
          · cases heq
          · cases heq
            exact sameKeys_statsUpd _ _ info tStart hinfo
              (sameKeys_ensure s _ _ _ tStart tEnd availMem loader
                modelSize memUsage device quant hreach hsk)
  | embedOp text reqName dflt availMem loader modelSize memUsage device
      quant embedding =>
      rcases he : get_embedding s text reqName dflt tStart tEnd availMem
        loader modelSize memUsage device quant embedding
        with _ | s2 | ⟨v, s2⟩
      · simp [runOp, he] at h
      · simp only [runOp, he] at h
        cases Option.some.inj h
        rcases get_embedding_state s text reqName dflt tStart tEnd availMem
          loader modelSize memUsage device quant embedding _ he with
          hout | ⟨s1, hreach, hrest⟩
        · cases hout
        · rcases hrest with heq | ⟨v0, heq⟩
          · cases heq
            exact sameKeys_ensure s _ _ _ tStart tEnd availMem loader
              modelSize memUsage device quant hreach hsk
          · cases heq
      · simp only [runOp, he] at h
        cases Option.some.inj h
        rcases get_embedding_state s text reqName dflt tStart tEnd availMem
          loader modelSize memUsage device quant embedding _ he with
          hout | ⟨s1, hreach, hrest⟩
        · cases hout
        · rcases hrest with heq | ⟨v0, heq⟩
          · cases heq
          · cases heq
            exact sameKeys_ensure s _ _ _ tStart tEnd availMem loader
              modelSize memUsage device quant hreach hsk
  | cleanupOp =>
      simp only [runOp, cleanup] at h
      exact sameKeys_cleanup_loop _ s s' h hsk

theorem clockBound_of_forall_mem (s : LLMState) (t : Rat)
    (h : ∀ p ∈ s.model_info, p.2.last_used ≤ t) : ClockBound s t :=
  fun id info hlk => h (id, info) (dictLookup_mem _ _ _ hlk)

/-- Evaluation of `generate_text` against an already-resident model: the
stats update always happens; the outcome then follows the decode oracle. -/
theorem generate_text_resident (s : LLMState) (req : GenerationRequest)
    (nm dflt : String) (tS tE am : Rat) (ld : Option (Nat × Nat))
    (ms mu : Rat) (dev : String) (q : Option String) (pt : Nat)
    (d : Option (Nat × String)) (info : ModelInfo) (tok m : Nat)
    (hreq : req.model_name = some nm) (hnm : nm ≠ "")
    (hm : dictLookup s.loaded_models nm = some m)
    (htok : dictLookup s.tokenizers nm = some tok)
    (hinfo : dictLookup s.model_info nm = some info) :
    generate_text s req dflt tS tE am ld ms mu dev q pt d
      = match d with
        | none => GenOutcome.failed (statsUpd s nm info tS)
        | some gt => GenOutcome.ok
            (mkGenResponse nm pt gt.1 gt.2 tS tE req.max_tokens)
            (statsUpd s nm info tS) := by
  have hres : containsKey s.loaded_models nm = true := by
    rw [containsKey_eq_isSome, hm]
    rfl
  have hrn : resolveModelName req.model_name dflt = nm := by
    simp [resolveModelName, hreq, hnm]
  rcases d with _ | gt <;>
    simp [generate_text, hrn, hres, hm, htok, hinfo, statsUpd]

/-- Evaluation of `get_embedding` against an already-resident model: the
manager state is returned untouched whatever the encoder does. -/
theorem get_embedding_resident (s : LLMState) (txt nm dflt : String)
    (tS tE am : Rat) (ld : Option (Nat × Nat)) (ms mu : Rat) (dev : String)
    (q : Option String) (emb : Option (List Rat)) (tok m : Nat)
    (hnm : nm ≠ "")
    (hm : dictLookup s.loaded_models nm = some m)
    (htok : dictLookup s.tokenizers nm = some tok) :
    get_embedding s txt (some nm) dflt tS tE am ld ms mu dev q emb
      = match emb with
        | none => EmbedOutcome.failed s
        | some v => EmbedOutcome.ok v s := by
  have hres : containsKey s.loaded_models nm = true := by
    rw [containsKey_eq_isSome, hm]
    rfl
  have hrn : resolveModelName (some nm) dflt = nm := by
    simp [resolveModelName, hnm]
  rcases emb with _ | v <;>
    simp [get_embedding, hrn, hres, hm, htok]

/-! ### Concrete fixtures -/

/-- A resident model "A", last used at time 0. -/
def infoA : ModelInfo :=
  { name := "A", model_type := ModelType.llm, size_gb := 1, device := "cpu",
    quantization := none, load_time := 0, last_used := 0, use_count := 0,
    memory_usage := 1 }

/-- A resident model "B", last used at time 1 (later than "A"). -/
def infoB : ModelInfo := { infoA with name := "B", last_used := 1 }

/-- Manager state with the single model "A" resident. -/
def stA : LLMState :=
  { loaded_models := [("A", 10)], tokenizers := [("A", 20)],
    model_info := [("A", infoA)], lockHeld := false }

/-- Manager state with "A" and "B" resident; "A" is the LRU entry. -/
def stAB : LLMState :=
  { loaded_models := [("A", 10), ("B", 11)],
    tokenizers := [("A", 20), ("B", 21)],
    model_info := [("A", infoA), ("B", infoB)], lockHeld := false }

/-- A generation request that targets "A" with max_tokens 5 and no
configured stop sequences (`stop_sequences = None`). -/
def reqA : GenerationRequest :=
  { prompt := "p", model_name := some "A", max_tokens := 5 }

/-! ### Claims -/

/-- C1: the claim says that when available memory is below the 2 GB floor
and at least two models are resident, a `load_model` call on a fresh
identifier performs exactly one eviction (of the resident with the smallest
`last_used`) and then proceeds with the load.  The code cannot do this: it
calls `_cleanup_unused_models` while `load_model` holds the non-reentrant
`asyncio.Lock`, and the eviction path calls the public `unload_model`,
which blocks forever re-acquiring that same lock.  At the failing input —
"A" (last_used 0) and "B" (last_used 1) resident, 1 GB available, loading
"C" — the would-be LRU victim is "A", but the call never completes
(modelled as `none`): no eviction happens and the load never proceeds. -/
theorem c1_eviction_deadlock_eval :
    (1 : Rat) < 2
    ∧ stAB.model_info.length = 2
    ∧ minByLastUsed stAB.model_info = some ("A", infoA)
    ∧ load_model stAB "C" ModelType.llm false 5 6 1 (some (12, 22)) 1 1
        "cpu" none = none := by
  decide

/-- C2 counterexample: a successful `generate_text` call with NO configured
stop sequences (so no stop sequence can possibly match — the stopping
criteria predicate is false on the decoded text) in which the opaque
runtime stops early (2 of 5 tokens, e.g. at an EOS token) still reports
`finish_reason = "stop"`, because line 306 computes the finish reason from
the token count alone.  This refutes the claimed "stop iff a configured
stop sequence matched". -/
theorem c2_finish_reason_counterexample :
    generate_text stAB reqA "D" 5 6 10 none 1 1 "cpu" none 3 (some (2, "hi"))
      = GenOutcome.ok (mkGenResponse "A" 3 2 "hi" 5 6 5)
          (statsUpd stAB "A" infoA 5)
    ∧ (mkGenResponse "A" 3 2 "hi" 5 6 5).finish_reason = "stop"
    ∧ (mkGenResponse "A" 3 2 "hi" 5 6 5).tokens_generated < 5
    ∧ reqA.stop_sequences = []
    ∧ custom_stopping_criteria reqA.stop_sequences "hi" = false :=
  ⟨rfl, by decide, by decide, rfl, by decide⟩

/-- The finish-reason accounting of `mkGenResponse`, in terms of the token
count alone. -/
theorem mkGenResponse_spec (nm : String) (pt g : Nat) (txt : String)
    (tS tE : Rat) (maxTok : Nat) (hg : g ≤ maxTok) :
    (mkGenResponse nm pt g txt tS tE maxTok).tokens_generated ≤ maxTok
    ∧ ((mkGenResponse nm pt g txt tS tE maxTok).finish_reason = "stop"
        ↔ (mkGenResponse nm pt g txt tS tE maxTok).tokens_generated
          < maxTok)
    ∧ ((mkGenResponse nm pt g txt tS tE maxTok).finish_reason = "length"
        ↔ (mkGenResponse nm pt g txt tS tE maxTok).tokens_generated
          = maxTok) := by
  have htg : (mkGenResponse nm pt g txt tS tE maxTok).tokens_generated
      = g := by
    simp [mkGenResponse]
  by_cases hgm : maxTok ≤ g
  · have hfr : (mkGenResponse nm pt g txt tS tE maxTok).finish_reason
        = "length" := by
      simp [mkGenResponse, Nat.add_sub_cancel_left, hgm]
    rw [htg, hfr]
    refine ⟨hg, ⟨fun hc => absurd hc (by decide), fun hc => by omega⟩,
      ⟨fun _ => by omega, fun _ => rfl⟩⟩
  · have hfr : (mkGenResponse nm pt g txt tS tE maxTok).finish_reason
        = "stop" := by
      simp [mkGenResponse, Nat.add_sub_cancel_left, hgm]
    rw [htg, hfr]
    exact ⟨hg, ⟨fun _ => by omega, fun _ => rfl⟩,
      ⟨fun hc => absurd hc (by decide), fun hc => by omega⟩⟩

/-- C2 (amended): for every successful `generate_text` call whose decode
oracle produced `g ≤ max_tokens` new tokens, `tokens_generated ≤ max_tokens`
and `finish_reason` is determined by the token count alone: `"stop"` iff
fewer than `max_tokens` tokens were produced (whatever ended generation —
a stop-sequence match or any other early termination), `"length"` iff
exactly `max_tokens` were produced. -/
theorem c2_finish_reason_amended (s : LLMState) (req : GenerationRequest)
    (dflt : String) (tS tE am : Rat) (ld : Option (Nat × Nat)) (ms mu : Rat)
    (dev : String) (q : Option String) (pt g : Nat) (txt : String)
    (resp : GenerationResponse) (s' : LLMState)
    (hg : g ≤ req.max_tokens)
    (h : generate_text s req dflt tS tE am ld ms mu dev q pt (some (g, txt))
      = GenOutcome.ok resp s') :
    resp.tokens_generated ≤ req.max_tokens
    ∧ (resp.finish_reason = "stop" ↔ resp.tokens_generated < req.max_tokens)
    ∧ (resp.finish_reason = "length"
        ↔ resp.tokens_generated = req.max_tokens) := by
  rcases generate_text_state s req dflt tS tE am ld ms mu dev q pt
    (some (g, txt)) _ h with hout | ⟨s1, hreach, hrest⟩
  · cases hout
  · rcases hrest with heq | ⟨info, hinfo, heq | ⟨gt, hd, heq⟩⟩
    · cases heq
    · cases heq
    · cases hd
      cases heq
      exact mkGenResponse_spec _ pt g txt tS tE req.max_tokens hg

/-- C2 witness: the amended theorem applied at a concrete call (resident
model "A", prompt of 3 tokens, 2 of 5 tokens generated). -/
theorem c2_finish_reason_amended_witness :
    (2 : Nat) ≤ reqA.max_tokens
    ∧ ((mkGenResponse "A" 3 2 "hi" 5 6 5).tokens_generated ≤ reqA.max_tokens
      ∧ ((mkGenResponse "A" 3 2 "hi" 5 6 5).finish_reason = "stop"
          ↔ (mkGenResponse "A" 3 2 "hi" 5 6 5).tokens_generated
            < reqA.max_tokens)
      ∧ ((mkGenResponse "A" 3 2 "hi" 5 6 5).finish_reason = "length"
          ↔ (mkGenResponse "A" 3 2 "hi" 5 6 5).tokens_generated
            = reqA.max_tokens)) :=
  ⟨by decide,
    c2_finish_reason_amended stAB reqA "D" 5 6 10 none 1 1 "cpu" none 3 2
      "hi" (mkGenResponse "A" 3 2 "hi" 5 6 5) (statsUpd stAB "A" infoA 5)
      (by decide) rfl⟩

/-- C3: `load_model` on an already-resident identifier with
`force_reload = false` returns success, leaves the resident-model and
tokenizer tables (hence the stored handle and tokenizer) unchanged, sets
that identifier's `last_used` to the current clock (an advance, given the
clock is at or past the previously stored stamp), and leaves every other
identifier's `model_info` entry unchanged. -/
theorem c3_load_already_resident (s : LLMState) (name : String)
    (mtype : ModelType) (tS tE am : Rat) (ld : Option (Nat × Nat))
    (ms mu : Rat) (dev : String) (q : Option String) (info : ModelInfo)
    (hl : s.lockHeld = false)
    (hres : containsKey s.loaded_models name = true)
    (hinfo : dictLookup s.model_info name = some info)
    (hclock : info.last_used ≤ tS) :
    ∃ s', load_model s name mtype false tS tE am ld ms mu dev q
        = some (true, s')
      ∧ s'.loaded_models = s.loaded_models
      ∧ s'.tokenizers = s.tokenizers
      ∧ dictLookup s'.model_info name = some { info with last_used := tS }
      ∧ info.last_used ≤ ({ info with last_used := tS } : ModelInfo).last_used
      ∧ (∀ id, id ≠ name
          → dictLookup s'.model_info id = dictLookup s.model_info id) := by
  refine ⟨_, load_model_fast s name mtype tS tE am ld ms mu dev q info hl
    hres hinfo, rfl, rfl, ?_, hclock, ?_⟩
  · exact dictLookup_set_self _ _ _
  · intro id hid
    exact dictLookup_set_ne _ _ _ _ hid

/-- C3 witness: reloading the already-resident "A" at clock 5. -/
theorem c3_load_already_resident_witness :
    ∃ s', load_model stAB "A" ModelType.llm false 5 6 10 none 1 1 "cpu" none
        = some (true, s')
      ∧ s'.loaded_models = stAB.loaded_models
      ∧ s'.tokenizers = stAB.tokenizers
      ∧ dictLookup s'.model_info "A" = some { infoA with last_used := 5 }
      ∧ infoA.last_used ≤ ({ infoA with last_used := 5 } : ModelInfo).last_used
      ∧ (∀ id, id ≠ "A"
          → dictLookup s'.model_info id = dictLookup stAB.model_info id) :=
  c3_load_already_resident stAB "A" ModelType.llm 5 6 10 none 1 1 "cpu"
    none infoA rfl (by decide) (by decide) (by decide)

/-- C4: when at most one `model_info` entry exists (at most one model
resident, given the equal-key-set invariant), a `load_model` call — even
with available memory below the floor — always completes and never evicts:
every previously resident identifier is still resident afterwards. -/
theorem c4_no_eviction_single_resident (s : LLMState) (name : String)
    (mtype : ModelType) (force_reload : Bool) (tS tE am : Rat)
    (ld : Option (Nat × Nat)) (ms mu : Rat) (dev : String)
    (q : Option String) (hl : s.lockHeld = false)
    (hone : s.model_info.length ≤ 1) :
    ∃ r, load_model s name mtype force_reload tS tE am ld ms mu dev q
        = some r
      ∧ ∀ id, containsKey s.loaded_models id = true
          → containsKey r.2.loaded_models id = true := by
  by_cases hres : containsKey s.loaded_models name = true
  · by_cases hforce : force_reload = true
    · rcases ld with _ | handles
      · exact ⟨(false, s), load_model_loader_fail s name mtype force_reload
          tS tE am ms mu dev q hl (Or.inr hforce) (Or.inr hone),
          fun id h => h⟩
      · refine ⟨(true, _), load_model_full s name mtype force_reload tS tE
          am handles ms mu dev q hl (Or.inr hforce) (Or.inr hone), ?_⟩
        intro id hid
        show containsKey (dictSet s.loaded_models name handles.1) id = true
        rw [containsKey_set, hid]
        rfl
    · have hforce' : force_reload = false := by simpa using hforce
      subst hforce'
      rcases hinfo : dictLookup s.model_info name with _ | info
      · exact ⟨(false, s), load_model_fast_noinfo s name mtype tS tE am ld
          ms mu dev q hl hres hinfo, fun id h => h⟩
      · exact ⟨(true, _), load_model_fast s name mtype tS tE am ld ms mu
          dev q info hl hres hinfo, fun id h => h⟩
  · have hres' : containsKey s.loaded_models name = false := by
      simpa using hres
    rcases ld with _ | handles
    · exact ⟨(false, s), load_model_loader_fail s name mtype force_reload
        tS tE am ms mu dev q hl (Or.inl hres') (Or.inr hone),
        fun id h => h⟩
    · refine ⟨(true, _), load_model_full s name mtype force_reload tS tE am
        handles ms mu dev q hl (Or.inl hres') (Or.inr hone), ?_⟩
      intro id hid
      show containsKey (dictSet s.loaded_models name handles.1) id = true
      rw [containsKey_set, hid]
      rfl

/-- C4 witness: loading "C" while only "A" is resident and memory is below
the floor (1 GB < 2 GB): the call completes and "A" stays resident. -/
theorem c4_no_eviction_single_resident_witness :
    ∃ r, load_model stA "C" ModelType.llm false 5 6 1 (some (12, 22)) 1 1
        "cpu" none = some r
      ∧ ∀ id, containsKey stA.loaded_models id = true
          → containsKey r.2.loaded_models id = true :=
  c4_no_eviction_single_resident stA "C" ModelType.llm false 5 6 1
    (some (12, 22)) 1 1 "cpu" none rfl (by decide)

/-- C5: `unload_model` on a non-resident identifier returns `false` and
leaves the manager state — all three tables — exactly unchanged. -/
theorem c5_unload_not_resident (s : LLMState) (name : String)
    (hl : s.lockHeld = false)
    (h : containsKey s.loaded_models name = false) :
    unload_model s name = some (false, s) :=
  unload_model_not_resident s name hl h

/-- C5 witness: unloading the never-loaded "Z". -/
theorem c5_unload_not_resident_witness :
    unload_model stA "Z" = some (false, stA) :=
  c5_unload_not_resident stA "Z" rfl (by decide)

/-- C6: when the type-specific loader fails (returns no model) on a
`load_model` call that is not the already-resident fast path, the call
returns `false` and mutates nothing: no entry is added for the requested
identifier, and all previously resident entries (all three tables) are
exactly as before.  The loader oracle is consulted once per call — there
is no retry. -/
theorem c6_loader_failure (s : LLMState) (name : String)
    (mtype : ModelType) (force_reload : Bool) (tS tE am : Rat) (ms mu : Rat)
    (dev : String) (q : Option String) (b : Bool) (s' : LLMState)
    (hfast : containsKey s.loaded_models name = false
      ∨ force_reload = true)
    (h : load_model s name mtype force_reload tS tE am none ms mu dev q
      = some (b, s')) :
    b = false ∧ s'.loaded_models = s.loaded_models
      ∧ s'.tokenizers = s.tokenizers
      ∧ s'.model_info = s.model_info := by
  obtain ⟨-, hc⟩ := load_model_cases s name mtype force_reload tS tE am
    none ms mu dev q b s' h
  rcases hc with ⟨info, hres, hforce, -, -, rfl⟩ | ⟨hres, hforce, -, -, rfl⟩
    | ⟨-, -, hb, rfl⟩ | ⟨handles, -, hld, -, rfl⟩
  · rcases hfast with hf | hf
    · rw [hres] at hf
      cases hf
    · rw [hforce] at hf
      cases hf
  · rcases hfast with hf | hf
    · rw [hres] at hf
      cases hf
    · rw [hforce] at hf
      cases hf
  · exact ⟨hb, rfl, rfl, rfl⟩
  · cases hld

/-- C6 witness: a failing loader for "C" with "A" resident leaves the
state untouched. -/
theorem c6_loader_failure_witness :
    false = false ∧ stA.loaded_models = stA.loaded_models
      ∧ stA.tokenizers = stA.tokenizers
      ∧ stA.model_info = stA.model_info :=
  c6_loader_failure stA "C" ModelType.llm false 5 6 10 1 1 "cpu" none false
    stA (Or.inl (by decide)) (by decide)

/-- C7: across any completing sequence of manager operations (loads,
unloads, generations, embeddings, cleanup) whose clock samples are
non-decreasing and start at or after every stamp already recorded, each
identifier's `last_used` never decreases: if an identifier carries stamp
`v` before the run and stamp `v'` after it, then `v ≤ v'`. -/
theorem c7_last_used_monotone (l : List ((Rat × Rat) × AiOp))
    (s s' : LLMState) (t0 : Rat) (id : String) (v v' : Rat)
    (hcb : ClockBound s t0) (hm : TimesMono t0 l)
    (hrun : runOps s l = some s') (hv : lastUsedOf s id = some v)
    (hv' : lastUsedOf s' id = some v') : v ≤ v' := by
  obtain ⟨-, hvals⟩ := runOps_invariant l s t0 s' hcb hm hrun
  rcases hvals id v' hv' with hw | hw
  · rw [hv] at hw
    exact le_of_eq (Option.some.inj hw)
  · unfold lastUsedOf at hv
    rcases hlk : dictLookup s.model_info id with _ | info0
    · rw [hlk] at hv
      cases hv
    · rw [hlk] at hv
      have hvle : info0.last_used ≤ t0 := hcb id info0 hlk
      have heq : info0.last_used = v := by simpa using hv
      exact le_trans (heq ▸ hvle) hw

/-- C7 witness: with "A" resident at stamp 0, a generation call timed at
clock interval [1, 2] moves the stamp to 1, and 0 ≤ 1. -/
theorem c7_last_used_monotone_witness : (0 : Rat) ≤ 1 :=
  c7_last_used_monotone
    [((1, 2), AiOp.generateOp reqA "D" 10 none 1 1 "cpu" none 3
      (some (2, "hi")))]
    stA (statsUpd stA "A" infoA 1) 0 "A" 0 1
    (clockBound_of_forall_mem stA 0 (by decide))
    ⟨by decide, by decide, trivial⟩ rfl rfl rfl

/-- C8 counterexample: a successful `get_embedding` call at clock 5 against
the resident model "A" returns the manager state completely unchanged —
"A"'s `use_count` is still 0 (not incremented) and its `last_used` still 0
(not refreshed to 5).  `get_embedding` never touches `model_info`,
refuting the claim that embedding calls mutate the usage fields like
`generate_text` does. -/
theorem c8_embedding_stats_counterexample :
    get_embedding stAB "x" (some "A") "D" 5 6 10 none 1 1 "cpu" none
        (some [1]) = EmbedOutcome.ok [1] stAB
    ∧ dictLookup stAB.model_info "A" = some infoA
    ∧ infoA.use_count = 0
    ∧ infoA.last_used = 0 :=
  ⟨rfl, rfl, rfl, rfl⟩

/-- C8 (amended): against an already-resident model, every `generate_text`
call refreshes `last_used` and increments `use_count` on that model's
ModelInfo, while every `get_embedding` call performs no usage-stats update
at all — it returns the manager state exactly unchanged. -/
theorem c8_usage_stats_amended (s : LLMState) (req : GenerationRequest)
    (nm dflt : String) (tS tE am : Rat) (ld : Option (Nat × Nat))
    (ms mu : Rat) (dev : String) (q : Option String) (pt : Nat)
    (info : ModelInfo) (tok m : Nat)
    (hreq : req.model_name = some nm) (hnm : nm ≠ "")
    (hm : dictLookup s.loaded_models nm = some m)
    (htok : dictLookup s.tokenizers nm = some tok)
    (hinfo : dictLookup s.model_info nm = some info) :
    (∀ g txt, generate_text s req dflt tS tE am ld ms mu dev q pt
        (some (g, txt))
      = GenOutcome.ok (mkGenResponse nm pt g txt tS tE req.max_tokens)
          (statsUpd s nm info tS))
    ∧ dictLookup (statsUpd s nm info tS).model_info nm
        = some { info with last_used := tS, use_count := info.use_count + 1 }
    ∧ (∀ txt emb, get_embedding s txt (some nm) dflt tS tE am ld ms mu dev
        q (some emb) = EmbedOutcome.ok emb s) := by
  refine ⟨?_, ?_, ?_⟩
  · intro g txt
    exact generate_text_resident s req nm dflt tS tE am ld ms mu dev q pt
      (some (g, txt)) info tok m hreq hnm hm htok hinfo
  · exact dictLookup_set_self _ _ _
  · intro txt emb
    exact get_embedding_resident s txt nm dflt tS tE am ld ms mu dev q
      (some emb) tok m hnm hm htok

/-- C8 witness: the amended theorem at the resident model "A". -/
theorem c8_usage_stats_amended_witness :
    (∀ g txt, generate_text stAB reqA "D" 5 6 10 none 1 1 "cpu" none 3
        (some (g, txt))
      = GenOutcome.ok (mkGenResponse "A" 3 g txt 5 6 reqA.max_tokens)
          (statsUpd stAB "A" infoA 5))
    ∧ dictLookup (statsUpd stAB "A" infoA 5).model_info "A"
        = some { infoA with last_used := 5, use_count := infoA.use_count + 1 }
    ∧ (∀ txt emb, get_embedding stAB txt (some "A") "D" 5 6 10 none 1 1
        "cpu" none (some emb) = EmbedOutcome.ok emb stAB) :=
  c8_usage_stats_amended stAB reqA "A" "D" 5 6 10 none 1 1 "cpu" none 3
    infoA 20 10 rfl (by decide) rfl rfl rfl

/-- C9: every manager operation that returns preserves the invariant that
`loaded_models`, `tokenizers`, and `model_info` have exactly the same key
set: an identifier is resident iff it has a tokenizer entry iff it has a
ModelInfo entry. -/
theorem c9_same_keys_preserved (s : LLMState) (tS tE : Rat) (op : AiOp)
    (s' : LLMState) (hsk : SameKeys s) (h : runOp s tS tE op = some s') :
    SameKeys s' :=
  sameKeys_runOp s tS tE op s' h hsk

/-- C9 witness: unloading "A" from the two-model state leaves the
equal-key-set invariant intact on the resulting single-model state. -/
theorem c9_same_keys_preserved_witness :
    SameKeys { loaded_models := [("B", 11)], tokenizers := [("B", 21)], model_info := [("B", infoB)], lockHeld := false } :=
  c9_same_keys_preserved stAB 0 1 (AiOp.unloadOp "A") _
    (fun id => ⟨rfl, rfl⟩) rfl

/-- C10: `generate_text` bumps `use_count` and refreshes `last_used`
before running generation, so a call whose generation step fails (the
exception is re-raised) still leaves the usage counters updated. -/
theorem c10_generate_failure_updates_stats (s : LLMState)
    (req : GenerationRequest) (nm dflt : String) (tS tE am : Rat)
    (ld : Option (Nat × Nat)) (ms mu : Rat) (dev : String)
    (q : Option String) (pt : Nat) (info : ModelInfo) (tok m : Nat)
    (hreq : req.model_name = some nm) (hnm : nm ≠ "")
    (hm : dictLookup s.loaded_models nm = some m)
    (htok : dictLookup s.tokenizers nm = some tok)
    (hinfo : dictLookup s.model_info nm = some info) :
    generate_text s req dflt tS tE am ld ms mu dev q pt none
      = GenOutcome.failed (statsUpd s nm info tS)
    ∧ dictLookup (statsUpd s nm info tS).model_info nm
        = some { info with last_used := tS, use_count := info.use_count + 1 } := by
  refine ⟨?_, ?_⟩
  · exact generate_text_resident s req nm dflt tS tE am ld ms mu dev q pt
      none info tok m hreq hnm hm htok hinfo
  · exact dictLookup_set_self _ _ _

/-- C10 witness: a failing generation against the resident "A" at clock 5
still advances its stats. -/
theorem c10_generate_failure_updates_stats_witness :
    generate_text stAB reqA "D" 5 6 10 none 1 1 "cpu" none 3 none
      = GenOutcome.failed (statsUpd stAB "A" infoA 5)
    ∧ dictLookup (statsUpd stAB "A" infoA 5).model_info "A"
        = some { infoA with last_used := 5, use_count := infoA.use_count + 1 } :=
  c10_generate_failure_updates_stats stAB reqA "A" "D" 5 6 10 none 1 1
    "cpu" none 3 infoA 20 10 rfl (by decide) rfl rfl rfl

end OET
